import Mathlib

/-!
Shallow embedding of `src/rt/cpp/vobject.h` (verona-rt): compile-time
capability detection (`has_notified`, `has_finaliser`, `has_destructor`),
descriptor synthesis (`VBase::desc`), the `gc_*` callback wrappers, and the
allocation/deallocation entry points of `V<T>` and `VCown<T>`.

A user C++ class `T` is embedded as a record of the compile-time facts the
header inspects: which optional members `T` declares, whether they have the
shape the wrappers require, whether `T` is trivially destructible, the size
of the class, and the body of its `trace` method.  Hook invocations made by
the wrappers are logged as `MemberCall` values carrying the exact receiver
and arguments, so dispatch can be stated precisely.

The external collaborators declared in `region_api.h` / `object.h`
(`api::create_object`, `api::create_fresh_region`, `Object::register_object`,
`vsizeof`, the thread allocator) are not part of the sources; they are
modelled from the spec, as marked on each definition.
-/

namespace VeronaRT

/-- Abstract object identity (the address of a managed object). -/
abbrev ObjId := Nat

/-- Abstract region identity. -/
abbrev RegionId := Nat

/-- Identity of an explicitly supplied allocator (`Alloc&`). -/
abbrev AllocId := Nat

/-- Identity of a user class as a key of the per-process descriptor cache. -/
abbrev TypeId := Nat

/-- Modelled from the spec: `region_kind` selects among isolation strategies
defined by the external collaborator; its value is opaque to this layer. -/
abbrev RegionType := Nat

/-- The GC mark stack (`ObjectStack`): the outgoing references pushed so far. -/
abbrev ObjectStack := List ObjId

/-- A member-function invocation performed by one of the `gc_*` wrappers,
recording the member called, the receiver, and the exact arguments. -/
inductive MemberCall where
  | notifiedCall (recv : ObjId) (arg : ObjId)
  | finaliserCall (recv : ObjId) (region : ObjId) (subRegions : ObjectStack)
  | dtorCall (recv : ObjId)
  deriving DecidableEq, Repr

/-- Compile-time view of a user class `T` passed to `V<T>` / `VCown<T>`:
the facts `vobject.h` inspects about `T` at build time, plus the observable
behaviour of the members the wrappers forward to. -/
structure CxxClass where
  /-- `sizeof(T)`: the size the compiler passes to `operator new`. -/
  sizeofT : Nat
  /-- Does `T` declare a member named `notified` (any shape)? -/
  declNotified : Bool
  /-- Does the declared `notified` member have the shape
  `gc_notified`'s body requires (callable as `((T*)o)->notified(o)`)? -/
  notifiedShapeOk : Bool
  /-- Does `T` declare a member named `finaliser` (any shape)? -/
  declFinaliser : Bool
  /-- Does the declared `finaliser` member have the shape
  `gc_final`'s body requires? -/
  finaliserShapeOk : Bool
  /-- `std::is_trivially_destructible_v<T>`. -/
  triviallyDestructible : Bool
  /-- Does `T` declare its own `trace`, hiding the no-op `VBase::trace`? -/
  declTrace : Bool
  /-- The body of `T::trace`: pushes `T`'s outgoing references on the stack. -/
  traceImpl : ObjId → ObjectStack → ObjectStack

/-- `has_notified<T>`: true exactly when `T` declares a member named
`notified`, whatever its signature (`std::void_t<decltype(&T::notified)>`). -/
def has_notified (T : CxxClass) : Bool := T.declNotified

/-- `has_finaliser<T>`: true exactly when `T` declares a member named
`finaliser`, whatever its signature. -/
def has_finaliser (T : CxxClass) : Bool := T.declFinaliser

/-- `has_destructor<T>::value = !std::is_trivially_destructible_v<T>`. -/
def has_destructor (T : CxxClass) : Bool := !T.triviallyDestructible

/-- `VBase<T>::gc_trace(o, st)`: calls `((T*)o)->trace(st)`.  Name lookup
finds `T`'s own `trace` when `T` declares one, otherwise the inherited
no-op `VBase::trace(ObjectStack&) {}`, which pushes nothing. -/
def gc_trace (T : CxxClass) (o : ObjId) (st : ObjectStack) : ObjectStack :=
  if T.declTrace then T.traceImpl o st else st

/-- `VBase<T>::gc_notified(o)`: when `has_notified<T>`, calls
`((T*)o)->notified(o)`; otherwise the body is empty. -/
def gc_notified (T : CxxClass) (o : ObjId) : List MemberCall :=
  if has_notified T then [MemberCall.notifiedCall o o] else []

/-- `VBase<T>::gc_final(o, region, sub_regions)`: when `has_finaliser<T>`,
calls `((T*)o)->finaliser(region, sub_regions)`; otherwise empty. -/
def gc_final (T : CxxClass) (o : ObjId) (region : ObjId)
    (subRegions : ObjectStack) : List MemberCall :=
  if has_finaliser T then [MemberCall.finaliserCall o region subRegions] else []

/-- `VBase<T>::gc_destructor(o)`: calls `((T*)o)->~T()` — a single
destructor invocation on `o`. -/
def gc_destructor (T : CxxClass) (o : ObjId) : List MemberCall :=
  [MemberCall.dtorCall o]

/-- Modelled from the spec: the runtime header prepended to every managed
value (descriptor reference plus GC bookkeeping); its size is the header
overhead included in a type's footprint. -/
def headerSize : Nat := 8

/-- Modelled from the spec: `vsizeof<T>`, the exact storage footprint of `T`
including header overhead. -/
def vsizeof (T : CxxClass) : Nat := headerSize + T.sizeofT

/-- The per-type callback table (`Descriptor`), field names as the spec
gives them; nullable function pointers are `Option`s. -/
structure Descriptor where
  size : Nat
  trace_fn : Option (ObjId → ObjectStack → ObjectStack)
  finalize_fn : Option (ObjId → ObjId → ObjectStack → List MemberCall)
  notify_fn : Option (ObjId → List MemberCall)
  destroy_fn : Option (ObjId → List MemberCall)

/-- The initializer of the function-local `static Descriptor desc` in
`VBase<T>::desc()`: `{vsizeof<T>, gc_trace, has_finaliser ? gc_final :
nullptr, has_notified ? gc_notified : nullptr, has_destructor ?
gc_destructor : nullptr}`. -/
def descValue (T : CxxClass) : Descriptor :=
  { size := vsizeof T
    trace_fn := some (gc_trace T)
    finalize_fn := if has_finaliser T then some (gc_final T) else none
    notify_fn := if has_notified T then some (gc_notified T) else none
    destroy_fn := if has_destructor T then some (gc_destructor T) else none }

/-- The program's user classes, indexed by `TypeId`. -/
abbrev Env := TypeId → CxxClass

/-- Per-object bookkeeping held by the runtime: the descriptor the memory
was registered with, the region containing it (if any), and the number of
bytes obtained from the allocator for it. -/
structure ObjInfo where
  descr : Descriptor
  region : Option RegionId
  allocBytes : Nat

/-- Bytes of an allocation usable for the C++ object itself: registration
places the header first and advances the returned pointer past it. -/
def usableBytes (info : ObjInfo) : Nat := info.allocBytes - headerSize

/-- Process state seen by this layer: the per-type descriptor cache (the
function-local statics of `VBase<T>::desc`), the managed heap, the region
roots, the ambient region, and fresh-identity counters. -/
structure World where
  descCache : TypeId → Option Descriptor
  heap : ObjId → Option ObjInfo
  regions : RegionId → Option ObjId
  ambient : RegionId
  nextObj : ObjId
  nextRegion : RegionId

/-- `VBase<T>::desc()`: function-local `static Descriptor desc = {...};
return &desc;` — build the descriptor on first use, cache it for the
process lifetime, return the cached instance ever after. -/
def descCall (env : Env) (t : TypeId) (w : World) : Descriptor × World :=
  match w.descCache t with
  | some d => (d, w)
  | none =>
    let d := descValue (env t)
    (d, { w with descCache := fun u => if u = t then some d else w.descCache u })

/-- Modelled from the spec: `create_object(descriptor) -> memory` — requests
T-shaped memory from the ambient region context and registers it against
the descriptor. -/
def create_object (d : Descriptor) (w : World) : ObjId × World :=
  (w.nextObj,
   { w with
      heap := fun o =>
        if o = w.nextObj then some ⟨d, some w.ambient, d.size⟩ else w.heap o
      nextObj := w.nextObj + 1 })

/-- Modelled from the spec: `create_fresh_region(kind, descriptor) -> memory`
— requests a new isolated region of the given kind with this object as its
root, registered against the descriptor. -/
def create_fresh_region (rt : RegionType) (d : Descriptor) (w : World) :
    ObjId × World :=
  (w.nextObj,
   { w with
      heap := fun o =>
        if o = w.nextObj then some ⟨d, some w.nextRegion, d.size⟩ else w.heap o
      regions := fun r =>
        if r = w.nextRegion then some w.nextObj else w.regions r
      nextObj := w.nextObj + 1
      nextRegion := w.nextRegion + 1 })

/-- Modelled from the spec: `register_object(memory, descriptor) -> handle`
— registers allocator memory of `bytes` bytes against the descriptor; the
header is placed at the start of the memory and the returned pointer is
advanced past it, reducing the usable bytes. -/
def register_object (bytes : Nat) (d : Descriptor) (w : World) :
    ObjId × World :=
  (w.nextObj,
   { w with
      heap := fun o =>
        if o = w.nextObj then some ⟨d, none, bytes⟩ else w.heap o
      nextObj := w.nextObj + 1 })

/-- `V<T>::operator new(size_t)`: `api::create_object(VBase::desc())`. -/
def v_new (env : Env) (t : TypeId) (w : World) : ObjId × World :=
  let r := descCall env t w
  create_object r.1 r.2

/-- `V<T>::operator new(size_t, RegionType)`:
`api::create_fresh_region<V>(rt, V::desc())`. -/
def v_new_region (env : Env) (t : TypeId) (rt : RegionType) (w : World) :
    ObjId × World :=
  let r := descCall env t w
  create_fresh_region rt r.1 r.2

/-- `VCown<T>::operator new(size_t)`:
`Object::register_object(ThreadAlloc::get().alloc<vsizeof<T>>(), desc())`. -/
def vcown_new (env : Env) (t : TypeId) (w : World) : ObjId × World :=
  let r := descCall env t w
  register_object (vsizeof (env t)) r.1 r.2

/-- `VCown<T>::operator new(size_t, Alloc&)`:
`Object::register_object(alloc.alloc<vsizeof<T>>(), desc())`. -/
def vcown_new_alloc (env : Env) (t : TypeId) (a : AllocId) (w : World) :
    ObjId × World :=
  let r := descCall env t w
  register_object (vsizeof (env t)) r.1 r.2

/-- `VCown<T>::operator new(size_t base_size, size_t req_size)`:
`assert(req_size >= base_size)` — a failed assert is fatal, modelled as
`none` — then `Object::register_object(ThreadAlloc::get().alloc(req_size),
desc())`.  `base_size` is the size the compiler passes: `sizeof` of the
class being allocated. -/
def vcown_new_oversized (env : Env) (t : TypeId)
    (base_size req_size : Nat) (w : World) : Option (ObjId × World) :=
  if base_size ≤ req_size then
    let r := descCall env t w
    some (register_object req_size r.1 r.2)
  else none

/-- `VBase::operator delete(void*)`: empty body. -/
def op_del (w : World) (p : ObjId) : World := w

/-- `VBase::operator delete(void*, size_t)`: empty body. -/
def op_del_sized (w : World) (p : ObjId) (sz : Nat) : World := w

/-- `VBase::operator delete(void*, Alloc&)`: empty body. -/
def op_del_alloc (w : World) (p : ObjId) (a : AllocId) : World := w

/-- `VBase::operator delete(void*, Object*)`: empty body. -/
def op_del_object (w : World) (p : ObjId) (q : ObjId) : World := w

/-- `VBase::operator delete(void*, Alloc&, Object*)`: empty body. -/
def op_del_alloc_object (w : World) (p : ObjId) (a : AllocId) (q : ObjId) :
    World := w

/-- `VBase::operator delete(void*, RegionType)`: empty body. -/
def op_del_region (w : World) (p : ObjId) (rt : RegionType) : World := w

/-- One invocation of an entry point of this layer. -/
inductive Op where
  | descRequest (t : TypeId)
  | vNew (t : TypeId)
  | vNewRegion (t : TypeId) (rt : RegionType)
  | cownNew (t : TypeId)
  | cownNewAlloc (t : TypeId) (a : AllocId)
  | cownNewOversized (t : TypeId) (base req : Nat)
  | delScalar (p : ObjId)
  | delSized (p : ObjId) (sz : Nat)
  | delAllocRef (p : ObjId) (a : AllocId)
  | delObjectPtr (p : ObjId) (q : ObjId)
  | delAllocObject (p : ObjId) (a : AllocId) (q : ObjId)
  | delRegionType (p : ObjId) (rt : RegionType)

/-- The state transition of each entry point (a fatal assert leaves the
state unchanged: the process dies without returning an object). -/
def step (env : Env) (w : World) : Op → World
  | .descRequest t => (descCall env t w).2
  | .vNew t => (v_new env t w).2
  | .vNewRegion t rt => (v_new_region env t rt w).2
  | .cownNew t => (vcown_new env t w).2
  | .cownNewAlloc t a => (vcown_new_alloc env t a w).2
  | .cownNewOversized t b r =>
    match vcown_new_oversized env t b r w with
    | some p => p.2
    | none => w
  | .delScalar p => op_del w p
  | .delSized p sz => op_del_sized w p sz
  | .delAllocRef p a => op_del_alloc w p a
  | .delObjectPtr p q => op_del_object w p q
  | .delAllocObject p a q => op_del_alloc_object w p a q
  | .delRegionType p rt => op_del_region w p rt

/-- Running a sequence of entry-point invocations. -/
def steps (env : Env) (w : World) : List Op → World
  | [] => w
  | op :: rest => steps env (step env w op) rest

/-- Instantiating `V<T>` / `VCown<T>` compiles exactly when every
name-detected hook has the shape its wrapper body requires: with
`has_notified<T>`, `gc_notified`'s body `((T*)o)->notified(o)` is compiled,
so a wrong-shaped `notified` is a build error, never silently ignored
(source comment, vobject.h lines 14-23); likewise for `finaliser`. -/
def vbase_instantiation_compiles (T : CxxClass) : Bool :=
  (!has_notified T || T.notifiedShapeOk) &&
    (!has_finaliser T || T.finaliserShapeOk)

/-- The operator members `VBase` declares: the six placement/scalar
`operator delete` overloads, and the array forms. -/
inductive OperatorMember where
  | delScalar
  | delSized
  | delAllocRef
  | delObjectPtr
  | delAllocObject
  | delRegionType
  | newArray
  | delArray
  | delArraySized
  deriving DecidableEq, Repr

/-- Which of `VBase`'s operator members are declared `= delete`
(vobject.h lines 143-145): exactly the array forms. -/
def deletedOverload : OperatorMember → Bool
  | .newArray => true
  | .delArray => true
  | .delArraySized => true
  | _ => false

/-- A call to a deleted function is ill-formed: it fails at build time. -/
def overloadCallCompiles (m : OperatorMember) : Bool := !deletedOverload m

/-- A leaf class: no outgoing references, no optional hooks, trivially
destructible, `sizeof` 8. -/
def sampleLeaf : CxxClass :=
  { sizeofT := 8
    declNotified := false
    notifiedShapeOk := false
    declFinaliser := false
    finaliserShapeOk := false
    triviallyDestructible := true
    declTrace := false
    traceImpl := fun _ st => st }

/-- A class with correctly shaped `notified` and `finaliser` members and a
non-trivial destructor. -/
def sampleFull : CxxClass :=
  { sizeofT := 16
    declNotified := true
    notifiedShapeOk := true
    declFinaliser := true
    finaliserShapeOk := true
    triviallyDestructible := false
    declTrace := false
    traceImpl := fun _ st => st }

/-- A class declaring both hooks under the right names but with wrong
shapes. -/
def sampleBadShape : CxxClass :=
  { sizeofT := 8
    declNotified := true
    notifiedShapeOk := false
    declFinaliser := true
    finaliserShapeOk := false
    triviallyDestructible := true
    declTrace := false
    traceImpl := fun _ st => st }

/-- A program with `sampleLeaf` at every type id. -/
def envS : Env := fun _ => sampleLeaf

/-- The initial process state: empty descriptor cache, empty heap. -/
def w0 : World :=
  { descCache := fun _ => none
    heap := fun _ => none
    regions := fun _ => none
    ambient := 0
    nextObj := 0
    nextRegion := 0 }

/-! Helper lemmas about `descCall` and the transition system. -/

theorem descCall_cache_post (env : Env) (t : TypeId) (w : World) :
    (descCall env t w).2.descCache t = some (descCall env t w).1 := by
  unfold descCall
  cases h : w.descCache t <;> simp [h]

theorem descCall_cached (env : Env) (t : TypeId) (w : World) (d : Descriptor)
    (h : w.descCache t = some d) : descCall env t w = (d, w) := by
  unfold descCall
  rw [h]

theorem descCall_preserves (env : Env) (u t : TypeId) (w : World)
    (d : Descriptor) (h : w.descCache t = some d) :
    (descCall env u w).2.descCache t = some d := by
  unfold descCall
  cases hu : w.descCache u with
  | some e => simpa using h
  | none =>
    simp only
    by_cases he : t = u
    · subst he
      rw [h] at hu
      exact absurd hu (by simp)
    · simpa [he] using h

theorem step_preserves_cache (env : Env) (w : World) (op : Op) (t : TypeId)
    (d : Descriptor) (h : w.descCache t = some d) :
    (step env w op).descCache t = some d := by
  cases op with
  | descRequest u => exact descCall_preserves env u t w d h
  | vNew u =>
    simpa [step, v_new, create_object] using descCall_preserves env u t w d h
  | vNewRegion u rt =>
    simpa [step, v_new_region, create_fresh_region] using
      descCall_preserves env u t w d h
  | cownNew u =>
    simpa [step, vcown_new, register_object] using
      descCall_preserves env u t w d h
  | cownNewAlloc u a =>
    simpa [step, vcown_new_alloc, register_object] using
      descCall_preserves env u t w d h
  | cownNewOversized u b r =>
    simp only [step, vcown_new_oversized]
    by_cases hbr : b ≤ r
    · simpa [hbr, register_object] using descCall_preserves env u t w d h
    · simpa [hbr] using h
  | delScalar p => simpa [step, op_del] using h
  | delSized p sz => simpa [step, op_del_sized] using h
  | delAllocRef p a => simpa [step, op_del_alloc] using h
  | delObjectPtr p q => simpa [step, op_del_object] using h
  | delAllocObject p a q => simpa [step, op_del_alloc_object] using h
  | delRegionType p rt => simpa [step, op_del_region] using h

theorem steps_preserve_cache (env : Env) (ops : List Op) (w : World)
    (t : TypeId) (d : Descriptor) (h : w.descCache t = some d) :
    (steps env w ops).descCache t = some d := by
  induction ops generalizing w with
  | nil => exact h
  | cons op rest ih =>
    exact ih (step env w op) (step_preserves_cache env w op t d h)

theorem descCall_frame (env : Env) (t : TypeId) (w : World) :
    (descCall env t w).2.heap = w.heap ∧
    (descCall env t w).2.regions = w.regions ∧
    (descCall env t w).2.ambient = w.ambient ∧
    (descCall env t w).2.nextObj = w.nextObj ∧
    (descCall env t w).2.nextRegion = w.nextRegion := by
  unfold descCall
  cases h : w.descCache t <;> simp [h]

/-! Claim theorems. -/

/-- C1: for every concrete type `T`, `desc()` returns the same `Descriptor`
instance on every call within the process — after the first request, the
cached entry for `T` still holds exactly the descriptor the first call
returned no matter which sequence of this layer's operations runs in
between, and a later `desc()` call returns that same instance unchanged
(no operation of the layer modifies any field of a built descriptor). -/
theorem desc_stable_immutable (env : Env) (t : TypeId) (w : World)
    (ops : List Op) :
    (steps env (descCall env t w).2 ops).descCache t =
        some (descCall env t w).1 ∧
    descCall env t (steps env (descCall env t w).2 ops) =
        ((descCall env t w).1, steps env (descCall env t w).2 ops) := by
  have h1 : (steps env (descCall env t w).2 ops).descCache t =
      some (descCall env t w).1 :=
    steps_preserve_cache env ops (descCall env t w).2 t (descCall env t w).1
      (descCall_cache_post env t w)
  exact ⟨h1, descCall_cached env t _ _ h1⟩

/-- C2: the built descriptor's `finalize_fn` is non-null iff `T` declares a
`finaliser` member and its `notify_fn` is non-null iff `T` declares a
`notified` member; when non-null, invoking the stored function on an object
performs exactly the dispatch `((T*)o)->notified(o)` resp.
`((T*)o)->finaliser(region, sub_regions)` — `T`'s own implementation with
the call's exact arguments. -/
theorem descriptor_hooks_dispatch (T : CxxClass) :
    ((descValue T).finalize_fn.isSome = T.declFinaliser) ∧
    ((descValue T).notify_fn.isSome = T.declNotified) ∧
    (∀ f, (descValue T).notify_fn = some f →
      ∀ o, f o = [MemberCall.notifiedCall o o]) ∧
    (∀ g, (descValue T).finalize_fn = some g →
      ∀ o r s, g o r s = [MemberCall.finaliserCall o r s]) := by
  refine ⟨?_, ?_, ?_, ?_⟩
  · unfold descValue has_finaliser
    cases T.declFinaliser <;> simp
  · unfold descValue has_notified
    cases T.declNotified <;> simp
  · intro f hf o
    unfold descValue has_notified at hf
    cases hn : T.declNotified with
    | false => rw [hn] at hf; simp at hf
    | true =>
      rw [hn] at hf
      simp only [if_true] at hf
      cases hf
      unfold gc_notified has_notified
      rw [hn]
      simp
  · intro g hg o r s
    unfold descValue has_finaliser at hg
    cases hn : T.declFinaliser with
    | false => rw [hn] at hg; simp at hg
    | true =>
      rw [hn] at hg
      simp only [if_true] at hg
      cases hg
      unfold gc_final has_finaliser
      rw [hn]
      simp

/-- Witness for C2 at the concrete class `sampleFull` (both hooks). -/
theorem descriptor_hooks_dispatch_w :
    gc_notified sampleFull 5 = [MemberCall.notifiedCall 5 5] ∧
    gc_final sampleFull 5 7 [9] = [MemberCall.finaliserCall 5 7 [9]] :=
  ⟨(descriptor_hooks_dispatch sampleFull).2.2.1 (gc_notified sampleFull)
      rfl 5,
   (descriptor_hooks_dispatch sampleFull).2.2.2 (gc_final sampleFull)
      rfl 5 7 [9]⟩

/-- C3: the descriptor's `trace_fn` is always non-null; if `T` defines no
`trace` of its own, invoking it on an instance pushes nothing — starting
from any mark stack it returns it unchanged, so the produced
outgoing-reference set is empty (leaf behaviour, `VBase::trace`). -/
theorem trace_always_present_default_empty (T : CxxClass) :
    (descValue T).trace_fn.isSome = true ∧
    (∀ f, (descValue T).trace_fn = some f → T.declTrace = false →
      ∀ o st, f o st = st) := by
  refine ⟨rfl, ?_⟩
  intro f hf ht o st
  unfold descValue at hf
  simp only [Option.some.injEq] at hf
  cases hf
  unfold gc_trace
  rw [ht]
  simp

/-- Witness for C3 at the concrete leaf class: tracing yields an empty
outgoing-reference set. -/
theorem trace_always_present_default_empty_w :
    gc_trace sampleLeaf 3 [] = [] :=
  (trace_always_present_default_empty sampleLeaf).2 (gc_trace sampleLeaf)
    rfl rfl 3 []

/-- C4: the descriptor's `destroy_fn` is null iff `T` is trivially
destructible; when non-null, invoking it on an object performs exactly one
destructor invocation `((T*)o)->~T()` on that object. -/
theorem destroy_fn_gated_runs_once (T : CxxClass) :
    ((descValue T).destroy_fn = none ↔ T.triviallyDestructible = true) ∧
    (∀ f, (descValue T).destroy_fn = some f →
      ∀ o, f o = [MemberCall.dtorCall o] ∧
        (f o).count (MemberCall.dtorCall o) = 1) := by
  constructor
  · unfold descValue has_destructor
    cases T.triviallyDestructible <;> simp
  · intro f hf o
    unfold descValue has_destructor at hf
    cases hd : T.triviallyDestructible with
    | true => rw [hd] at hf; simp at hf
    | false =>
      rw [hd] at hf
      simp only [Bool.not_false, if_true] at hf
      cases hf
      unfold gc_destructor
      simp [List.count]

/-- Witness for C4 at the concrete class `sampleFull` (non-trivial
destructor). -/
theorem destroy_fn_gated_runs_once_w :
    gc_destructor sampleFull 4 = [MemberCall.dtorCall 4] ∧
    (gc_destructor sampleFull 4).count (MemberCall.dtorCall 4) = 1 :=
  (destroy_fn_gated_runs_once sampleFull).2 (gc_destructor sampleFull) rfl 4

theorem vcown_new_oversized_eq (env : Env) (t : TypeId) (base req : Nat)
    (w : World) (hbr : base ≤ req) :
    vcown_new_oversized env t base req w =
      some ((descCall env t w).2.nextObj,
        { (descCall env t w).2 with
            heap := fun o =>
              if o = (descCall env t w).2.nextObj then
                some ⟨(descCall env t w).1, none, req⟩
              else (descCall env t w).2.heap o
            nextObj := (descCall env t w).2.nextObj + 1 }) := by
  unfold vcown_new_oversized register_object
  rw [if_pos hbr]

/-- C5 counterexample: the claim says every requested size below `T`'s
footprint (which includes the header overhead) is rejected; but for the
leaf class (`sizeof` 8, footprint 16) the request of 8 bytes passes the
defensive check and returns an object. -/
theorem oversized_below_footprint_accepted :
    8 < vsizeof (envS 0) ∧
    (vcown_new_oversized envS 0 8 8 w0).isSome = true :=
  ⟨by decide, rfl⟩

/-- C5 (amended): the defensive check compares the requested size against
the compiler-supplied base size (`sizeof` of the class), not against the
footprint including the header: the allocation succeeds exactly when
`req_size ≥ base_size` (and is fatal otherwise), the returned allocation
holds exactly `req_size` bytes, and whenever `req_size` does reach the
full footprint the memory left after the header suffices to construct
`T`. -/
theorem oversized_checks_base_size (env : Env) (t : TypeId) (w : World)
    (base req : Nat) :
    ((vcown_new_oversized env t base req w).isSome = true ↔ base ≤ req) ∧
    (∀ o w1, vcown_new_oversized env t base req w = some (o, w1) →
      (w1.heap o).map ObjInfo.allocBytes = some req) ∧
    (base = (env t).sizeofT → vsizeof (env t) ≤ req →
      ∃ o w1, vcown_new_oversized env t base req w = some (o, w1) ∧
        ∃ info, w1.heap o = some info ∧
          (env t).sizeofT ≤ usableBytes info) := by
  refine ⟨?_, ?_, ?_⟩
  · unfold vcown_new_oversized
    by_cases hbr : base ≤ req
    · simp [hbr]
    · simp [hbr]
  · intro o w1 hw
    by_cases hbr : base ≤ req
    · rw [vcown_new_oversized_eq env t base req w hbr] at hw
      obtain ⟨h1, h2⟩ := Prod.ext_iff.mp (Option.some.inj hw)
      simp only at h1 h2
      subst h1
      subst h2
      simp
    · rw [vcown_new_oversized, if_neg hbr] at hw
      exact absurd hw (by simp)
  · intro hbase hreq
    have hle : base ≤ req := by
      unfold vsizeof at hreq
      omega
    refine ⟨(descCall env t w).2.nextObj, _,
      vcown_new_oversized_eq env t base req w hle,
      ⟨(descCall env t w).1, none, req⟩, ?_, ?_⟩
    · simp
    · unfold usableBytes vsizeof at *
      simp only
      omega

/-- Witness for C5 (amended) at the leaf class, base 8, request 16. -/
theorem oversized_checks_base_size_w :
    (vcown_new_oversized envS 0 8 16 w0).isSome = true ∧
    (∃ o w1, vcown_new_oversized envS 0 8 16 w0 = some (o, w1) ∧
      ∃ info, w1.heap o = some info ∧
        (envS 0).sizeofT ≤ usableBytes info) :=
  ⟨((oversized_checks_base_size envS 0 w0 8 16).1).mpr (by decide),
   (oversized_checks_base_size envS 0 w0 8 16).2.2 rfl (by decide)⟩

/-- C7: every allocation entry point registers the returned memory against
the descriptor that the `desc()` call inside it returns: plain-object
allocation, fresh-region allocation (which additionally makes the returned
object the new region's root), and the three owner variants
(thread-local, explicit-allocator, oversized). -/
theorem alloc_tags_descriptor (env : Env) (t : TypeId) (w : World) :
    ((v_new env t w).2.heap (v_new env t w).1).map ObjInfo.descr =
        some (descCall env t w).1 ∧
    (∀ rt,
      ((v_new_region env t rt w).2.heap (v_new_region env t rt w).1).map
          ObjInfo.descr = some (descCall env t w).1 ∧
      (v_new_region env t rt w).2.regions w.nextRegion =
          some (v_new_region env t rt w).1 ∧
      ((v_new_region env t rt w).2.heap (v_new_region env t rt w).1).map
          ObjInfo.region = some (some w.nextRegion)) ∧
    ((vcown_new env t w).2.heap (vcown_new env t w).1).map ObjInfo.descr =
        some (descCall env t w).1 ∧
    (∀ a,
      ((vcown_new_alloc env t a w).2.heap
          (vcown_new_alloc env t a w).1).map ObjInfo.descr =
        some (descCall env t w).1) ∧
    (∀ base req o w1,
      vcown_new_oversized env t base req w = some (o, w1) →
      (w1.heap o).map ObjInfo.descr = some (descCall env t w).1) := by
  obtain ⟨hh, hr, ha, ho, hn⟩ := descCall_frame env t w
  refine ⟨?_, ?_, ?_, ?_, ?_⟩
  · simp [v_new, create_object]
  · intro rt
    refine ⟨?_, ?_, ?_⟩
    · simp [v_new_region, create_fresh_region]
    · simp [v_new_region, create_fresh_region, hn]
    · simp [v_new_region, create_fresh_region, hn]
  · simp [vcown_new, register_object]
  · intro a
    simp [vcown_new_alloc, register_object]
  · intro base req o w1 hw
    by_cases hbr : base ≤ req
    · rw [vcown_new_oversized_eq env t base req w hbr] at hw
      obtain ⟨h1, h2⟩ := Prod.ext_iff.mp (Option.some.inj hw)
      simp only at h1 h2
      subst h1
      subst h2
      simp
    · rw [vcown_new_oversized, if_neg hbr] at hw
      exact absurd hw (by simp)

/-- Witness for C7 at the leaf class: the oversized owner path tags the
returned object with the descriptor `desc()` returns. -/
theorem alloc_tags_descriptor_w :
    ((((vcown_new_oversized envS 0 8 16 w0).getD (0, w0)).2.heap
        ((vcown_new_oversized envS 0 8 16 w0).getD (0, w0)).1).map
      ObjInfo.descr) = some (descCall envS 0 w0).1 :=
  (alloc_tags_descriptor envS 0 w0).2.2.2.2 8 16
    ((vcown_new_oversized envS 0 8 16 w0).getD (0, w0)).1
    ((vcown_new_oversized envS 0 8 16 w0).getD (0, w0)).2 rfl

/-- C8: every `operator delete` overload on `V`/`VCown` objects is a no-op
— the process state is unchanged — and no entry point of this layer ever
removes a registered object from the heap: teardown is not reachable
through user deallocation, only through the descriptor's `destroy_fn`
held by the GC/region subsystem. -/
theorem deletes_are_noops (w : World) :
    (∀ p, op_del w p = w) ∧
    (∀ p sz, op_del_sized w p sz = w) ∧
    (∀ p a, op_del_alloc w p a = w) ∧
    (∀ p q, op_del_object w p q = w) ∧
    (∀ p a q, op_del_alloc_object w p a q = w) ∧
    (∀ p rt, op_del_region w p rt = w) ∧
    (∀ env op o info, o < w.nextObj → w.heap o = some info →
      (step env w op).heap o = some info) := by
  refine ⟨fun p => rfl, fun p sz => rfl, fun p a => rfl, fun p q => rfl,
    fun p a q => rfl, fun p rt => rfl, ?_⟩
  intro env op o info hlt hsome
  have hne : o ≠ w.nextObj := Nat.ne_of_lt hlt
  cases op with
  | descRequest u =>
    obtain ⟨hh, _, _, _, _⟩ := descCall_frame env u w
    simp only [step]
    rw [hh]
    exact hsome
  | vNew u =>
    obtain ⟨hh, _, _, ho2, _⟩ := descCall_frame env u w
    simp only [step, v_new, create_object]
    rw [ho2, if_neg hne, hh]
    exact hsome
  | vNewRegion u rt =>
    obtain ⟨hh, _, _, ho2, _⟩ := descCall_frame env u w
    simp only [step, v_new_region, create_fresh_region]
    rw [ho2, if_neg hne, hh]
    exact hsome
  | cownNew u =>
    obtain ⟨hh, _, _, ho2, _⟩ := descCall_frame env u w
    simp only [step, vcown_new, register_object]
    rw [ho2, if_neg hne, hh]
    exact hsome
  | cownNewAlloc u a =>
    obtain ⟨hh, _, _, ho2, _⟩ := descCall_frame env u w
    simp only [step, vcown_new_alloc, register_object]
    rw [ho2, if_neg hne, hh]
    exact hsome
  | cownNewOversized u b r =>
    obtain ⟨hh, _, _, ho2, _⟩ := descCall_frame env u w
    simp only [step]
    by_cases hbr : b ≤ r
    · rw [vcown_new_oversized_eq env u b r w hbr]
      simp only
      rw [ho2, if_neg hne, hh]
      exact hsome
    · rw [vcown_new_oversized, if_neg hbr]
      exact hsome
  | delScalar p => exact hsome
  | delSized p sz => exact hsome
  | delAllocRef p a => exact hsome
  | delObjectPtr p q => exact hsome
  | delAllocObject p a q => exact hsome
  | delRegionType p rt => exact hsome

/-- Witness for C8: deleting an allocated leaf object leaves it intact. -/
theorem deletes_are_noops_w :
    op_del (v_new envS 0 w0).2 0 = (v_new envS 0 w0).2 ∧
    (step envS (v_new envS 0 w0).2 (Op.delScalar 0)).heap 0 =
      some ⟨descValue sampleLeaf, some 0, vsizeof sampleLeaf⟩ :=
  ⟨(deletes_are_noops (v_new envS 0 w0).2).1 0,
   (deletes_are_noops (v_new envS 0 w0).2).2.2.2.2.2.2 envS (Op.delScalar 0)
     0 ⟨descValue sampleLeaf, some 0, vsizeof sampleLeaf⟩ (by decide) rfl⟩

/-- C9: capability detection is name-based only — `has_notified` /
`has_finaliser` are unchanged by the shape of the declared member — and a
member present under the right name but with the wrong shape leaves the
capability detected, which makes the wrapper body ill-formed: the build
fails instead of silently ignoring the hook. -/
theorem detection_name_based (T : CxxClass) :
    (∀ b c,
      has_notified
          { T with notifiedShapeOk := b, finaliserShapeOk := c } =
        has_notified T ∧
      has_finaliser
          { T with notifiedShapeOk := b, finaliserShapeOk := c } =
        has_finaliser T) ∧
    (T.declNotified = true → T.notifiedShapeOk = false →
      has_notified T = true ∧ vbase_instantiation_compiles T = false) ∧
    (T.declFinaliser = true → T.finaliserShapeOk = false →
      has_finaliser T = true ∧ vbase_instantiation_compiles T = false) := by
  refine ⟨fun b c => ⟨rfl, rfl⟩, ?_, ?_⟩
  · intro h1 h2
    refine ⟨h1, ?_⟩
    unfold vbase_instantiation_compiles has_notified
    rw [h1, h2]
    simp
  · intro h1 h2
    refine ⟨h1, ?_⟩
    unfold vbase_instantiation_compiles has_finaliser
    rw [h1, h2]
    simp

/-- Witness for C9 at the wrong-shaped class: the hook is still detected
and the instantiation does not compile. -/
theorem detection_name_based_w :
    has_notified sampleBadShape = true ∧
    vbase_instantiation_compiles sampleBadShape = false :=
  (detection_name_based sampleBadShape).2.1 rfl rfl

/-- C10: the array forms `operator new[]` / `operator delete[]` — and only
they — are declared `= delete` on `V`/`VCown` objects, so any attempt to
allocate or deallocate an array of managed objects fails at build time. -/
theorem array_forms_deleted :
    (∀ m : OperatorMember, deletedOverload m = true ↔
      (m = OperatorMember.newArray ∨ m = OperatorMember.delArray ∨
        m = OperatorMember.delArraySized)) ∧
    overloadCallCompiles OperatorMember.newArray = false ∧
    overloadCallCompiles OperatorMember.delArray = false ∧
    overloadCallCompiles OperatorMember.delArraySized = false := by
  refine ⟨?_, rfl, rfl, rfl⟩
  intro m
  cases m <;> simp [deletedOverload]

end VeronaRT
